import Mathlib

/-!
Verification of the Inventory Reconciliation & Replenishment Engine
(`app.py`): a shallow embedding of the engine's pure core — numeric
coercion (`to_num`, `to_int`), column auto-mapping (`auto_map`), row
normalization (`build_base`), the three-way merge (`merged_inventory`),
status classification (`classify`) and the replenishment recommendation
(`recommend`) — together with theorems settling the specification's
claims about them.

Modelling conventions:
* Python floats are embedded as rationals (`ℚ`); the decimal literal
  `1.1` becomes `11/10`.
* Machine integers are embedded as `ℤ`.
* A pandas `DataFrame` is embedded as a `List` of records; a missing
  (`NaN`) numeric cell that the code fills with `fillna(0)` is the
  rational `0`, and a missing text cell is the empty string.
* A date is embedded as its day number (`ℤ`); an absent `ETA` is `none`.
-/

namespace Voorraad

/-! ### Character and string utilities (Python `str.strip`, `str.lower`,
`str.replace`) -/

/-- List of characters treated as whitespace (the ASCII whitespace
recognized by Python's `str.strip` / the regex class `\s`). -/
def isSpaceChar (c : Char) : Bool :=
  c == ' ' || c == '\t' || c == '\n' || c == '\r' || c == '\x0b' || c == '\x0c'

/-- Embedding of Python `str.strip()`: drop leading and trailing
whitespace. -/
def pyStrip (s : String) : String :=
  ⟨((s.data.dropWhile isSpaceChar).reverse.dropWhile isSpaceChar).reverse⟩

/-- Embedding of Python `str.lower()` (per-character lowering). -/
def pyLower (s : String) : String :=
  ⟨s.data.map Char.toLower⟩

/-- Embedding of `str.replace(",", ".")` as used by `to_num` / `to_int`
(both arguments are single characters, so a character map is exact). -/
def commaToDot (s : String) : String :=
  ⟨s.data.map (fun c => if c == ',' then '.' else c)⟩

/-- Turning a decimal-point string into its decimal-comma form (used to
state the separator-equivalence property). -/
def dotToComma (s : String) : String :=
  ⟨s.data.map (fun c => if c == '.' then ',' else c)⟩

/-! ### Numeric coercion (`to_num`, `to_int`)

`pd.to_numeric(..., errors="coerce")` parses a decimal literal
(optional sign, integer part, optional fractional part, optional
exponent, surrounding whitespace allowed) and yields `NaN` — later
filled with `0` — on anything else.  The parse result is kept as a
mantissa/exponent pair of integers so that it is computable by `decide`;
`ratOfSci` interprets the pair as a rational. -/

def isDigitC (c : Char) : Bool := '0' ≤ c && c ≤ '9'

def digitVal (c : Char) : ℕ := c.toNat - 48

def natOfDigits (ds : List Char) : ℕ :=
  ds.foldl (fun a c => 10 * a + digitVal c) 0

/-- Leading sign of a numeric literal: `(negative?, rest)`. -/
def splitSign : List Char → Bool × List Char
  | '-' :: t => (true, t)
  | '+' :: t => (false, t)
  | cs => (false, cs)

/-- Parse a decimal literal into scientific form `some (a, e)` with value
`a * 10 ^ e`, or `none` when the text is not a number. -/
def parseSciCore (cs : List Char) : Option (ℤ × ℤ) :=
  let sg := splitSign cs
  let ip := sg.2.takeWhile isDigitC
  let cs2 := sg.2.dropWhile isDigitC
  let fprest : List Char × List Char :=
    match cs2 with
    | '.' :: t => (t.takeWhile isDigitC, t.dropWhile isDigitC)
    | _ => ([], cs2)
  if ip.isEmpty && fprest.1.isEmpty then none
  else
    let m : ℕ := natOfDigits (ip ++ fprest.1)
    let a : ℤ := if sg.1 then -(m : ℤ) else (m : ℤ)
    match fprest.2 with
    | [] => some (a, -(fprest.1.length : ℤ))
    | c :: t =>
      if c == 'e' || c == 'E' then
        let esg := splitSign t
        let ed := esg.2.takeWhile isDigitC
        let t2 := esg.2.dropWhile isDigitC
        if ed.isEmpty || !t2.isEmpty then none
        else
          let ex : ℤ := if esg.1 then -(natOfDigits ed : ℤ) else (natOfDigits ed : ℤ)
          some (a, ex - (fprest.1.length : ℤ))
      else none

def parseSci (s : String) : Option (ℤ × ℤ) :=
  parseSciCore (pyStrip s).data

def ratOfSci (p : ℤ × ℤ) : ℚ :=
  (p.1 : ℚ) * (10 : ℚ) ^ p.2

/-- Embedding of `to_num` (app.py line 24): replace the decimal comma by
a decimal point, parse, and fall back to `0` on anything unparseable. -/
def to_num (s : String) : ℚ :=
  ((parseSci (commaToDot s)).map ratOfSci).getD 0

/-- Embedding of `to_int` (app.py line 27) applied to an already-numeric
cell (`str(x)` followed by re-parsing is the identity on the value, and
Python's `int()` truncates toward zero). -/
def to_int_q (q : ℚ) : ℤ :=
  q.num.tdiv q.den

/-! ### Status classification and replenishment recommendation -/

/-- The four health states ("Out of stock", "At risk", "Healthy",
"Overstock"). -/
inductive Status where
  | outOfStock
  | atRisk
  | healthy
  | overstock
deriving DecidableEq, Repr

/-- Embedding of `classify` (app.py lines 407–414); `f` is the row's
`Verkoopprognose min (Totaal 4w)`, `vrij` its `Vrije voorraad`,
`incoming` its `Incoming`, `over` the configured `over_units`. -/
def classify (f vrij incoming : ℚ) (over : ℤ) : Status :=
  let stock_total := vrij + incoming
  if stock_total ≤ 0 then .outOfStock
  else if f ≤ 0 then .healthy
  else if stock_total < f then .atRisk
  else if stock_total ≥ f + (over : ℚ) then .overstock
  else .healthy

/-- Classification exactly as the specification words it (decision
order: out-of-stock, no-signal healthy, at-risk, overstock, fallthrough
healthy), for comparison with the code's `classify`. -/
def classifySpec (f vrij incoming : ℚ) (over : ℤ) : Status :=
  let totalStock := vrij + incoming
  if totalStock ≤ 0 then .outOfStock
  else if f ≤ 0 then .healthy
  else if totalStock < f then .atRisk
  else if totalStock ≥ f + (over : ℚ) then .overstock
  else .healthy

/-- Embedding of `recommend` (app.py lines 416–423); `moq` is the value
`to_int(row.get("MOQ",1),1)` already coerced to an integer. -/
def recommend (f vrij incoming : ℚ) (moq : ℤ) : ℤ :=
  let stock_total := vrij + incoming
  if f ≤ 0 then 0
  else
    let target : ℚ := 11 / 10 * f
    let need : ℚ := max 0 (target - stock_total)
    let m : ℤ := max 1 moq
    ⌈need / (m : ℚ)⌉ * m

/-! ### Data model: the three source datasets and the enriched view -/

/-- One canonical stock record (row of `base_data` / of `build_base`'s
output, columns `REQ_ORDER`). -/
structure StockRec where
  ean : String
  ref : String
  titel : String
  vrij : ℚ
  verkopen : ℚ
  prognose : ℤ
deriving DecidableEq, Repr

/-- One commercial-terms record (row of the `prices` table as returned
by `load_prices`, which trims `EAN` and fills numeric blanks with 0). -/
structure PriceRec where
  ean : String
  ref : String
  verkoopprijs : ℚ
  inkoopprijs : ℚ
  verzendkosten : ℚ
  overige : ℚ
  leverancier : String
  moq : ℚ
  levertijd : ℚ
deriving DecidableEq, Repr

/-- One inbound-shipment record (row of the `incoming` table;
`add_incoming_row` stores a trimmed `EAN`, and an empty `ETA` is
`none`). -/
structure IncomingRec where
  ean : String
  aantal : ℚ
  eta : Option ℤ
deriving DecidableEq, Repr

/-- One row of the enriched view produced by `merged_inventory`. -/
structure EnrichedRow where
  ean : String
  ref : String
  titel : String
  vrij : ℚ
  verkopen : ℚ
  prognose : ℤ
  incoming : ℚ
  verkoopprijs : ℚ
  inkoopprijs : ℚ
  verzendkosten : ℚ
  overige : ℚ
  leverancier : String
  moq : ℚ
  levertijd : ℚ
  voorraadwaarde : ℚ
  kostprijs : ℚ
deriving DecidableEq, Repr

/-! ### The three-way merge (`merged_inventory`, app.py lines 368–404) -/

/-- Filter applied to shipments (app.py line 381): keep a record when
its `ETA` is absent or today-or-later. -/
def etaPending (today : ℤ) (r : IncomingRec) : Bool :=
  match r.eta with
  | none => true
  | some d => today ≤ d

/-- Pending incoming quantity for product `e` (app.py lines 381–385):
filter shipments by `ETA`, group by `EAN`, sum `Aantal`; a product with
no qualifying shipments gets `0` via `fillna(0)`. -/
def incomingFor (incoming : List IncomingRec) (today : ℤ) (e : String) : ℚ :=
  (((incoming.filter (etaPending today)).filter (fun r => r.ean == e)).map
    (·.aantal)).sum

/-- Incoming quantity exactly as the specification words it: the sum of
`quantity` over the shipment records sharing the row's product id whose
`eta` is absent or today-or-later. -/
def incomingSpec (incoming : List IncomingRec) (today : ℤ) (e : String) : ℚ :=
  (((incoming.filter (fun r => r.ean == e)).filter (etaPending today)).map
    (·.aantal)).sum

/-- Build one enriched row from a stock record (whose `ean` is already
trimmed), its pending incoming quantity, and its matching terms row if
any.  With no matching terms row the joined columns are `NaN`, coerced
to `0` by the numeric pass (app.py lines 397–398) and to the empty
string for text; the `Referentie` of the stock row wins when non-empty
(app.py line 391). -/
def enrich (s : StockRec) (inc : ℚ) : Option PriceRec → EnrichedRow
  | none =>
    { ean := s.ean, ref := s.ref, titel := s.titel, vrij := s.vrij,
      verkopen := s.verkopen, prognose := s.prognose, incoming := inc,
      verkoopprijs := 0, inkoopprijs := 0, verzendkosten := 0, overige := 0,
      leverancier := "", moq := 0, levertijd := 0,
      voorraadwaarde := s.vrij * 0, kostprijs := 0 + 0 + 0 }
  | some p =>
    { ean := s.ean, ref := if s.ref = "" then p.ref else s.ref,
      titel := s.titel, vrij := s.vrij,
      verkopen := s.verkopen, prognose := s.prognose, incoming := inc,
      verkoopprijs := p.verkoopprijs, inkoopprijs := p.inkoopprijs,
      verzendkosten := p.verzendkosten, overige := p.overige,
      leverancier := p.leverancier, moq := p.moq, levertijd := p.levertijd,
      voorraadwaarde := s.vrij * p.verkoopprijs,
      kostprijs := p.inkoopprijs + p.verzendkosten + p.overige }

/-- Left-join step for one stock record: trim its `EAN`, attach the
pending incoming sum, and join the terms table on `EAN` (a pandas left
merge emits one row per matching terms row and a single defaulted row
when there is no match). -/
def enrichOne (prices : List PriceRec) (incoming : List IncomingRec)
    (today : ℤ) (s0 : StockRec) : List EnrichedRow :=
  let s : StockRec := { s0 with ean := pyStrip s0.ean }
  let inc := incomingFor incoming today s.ean
  match prices.filter (fun p => p.ean == s.ean) with
  | [] => [enrich s inc none]
  | ps => ps.map (fun p => enrich s inc (some p))

/-- Embedding of `merged_inventory` (app.py lines 368–404): `none` when
no stock snapshot is loaded, otherwise the stock rows enriched by
`enrichOne`. -/
def merged_inventory (base : Option (List StockRec)) (prices : List PriceRec)
    (incoming : List IncomingRec) (today : ℤ) : Option (List EnrichedRow) :=
  match base with
  | none => none
  | some rows => some (rows.flatMap (enrichOne prices incoming today))

/-- Embedding of `load_base_df` (app.py lines 294–307): reading the
persisted stock snapshot yields `none` when the `base_data` table is
empty, otherwise the rows themselves. -/
def load_base_df (tbl : List StockRec) : Option (List StockRec) :=
  if tbl.isEmpty then none else some tbl

/-! ### The recomputation pass (Home page, app.py lines 479–545) -/

/-- The state read by one recomputation pass: the in-memory stock
snapshot (`st.session_state.base_df`), the two persisted side tables,
the configured overstock threshold and the current date. -/
structure AppState where
  base : Option (List StockRec)
  prices : List PriceRec
  incoming : List IncomingRec
  overUnits : ℤ
  today : ℤ
deriving DecidableEq

/-- One output row of the pass: the enriched row with its `Status` and
its `Aanbevolen bestelaantal`. -/
structure OutRow where
  row : EnrichedRow
  status : Status
  advies : ℤ
deriving DecidableEq

/-- Classification of one enriched row (app.py line 492). -/
def classifyRow (r : EnrichedRow) (over : ℤ) : Status :=
  classify (r.prognose : ℚ) r.vrij r.incoming over

/-- Recommendation for one enriched row (app.py line 539); the `MOQ`
cell goes through `to_int`. -/
def recommendRow (r : EnrichedRow) : ℤ :=
  recommend (r.prognose : ℚ) r.vrij r.incoming (to_int_q r.moq)

/-- One full recomputation pass (merge, classify, recommend), returning
its output and the state it leaves behind.  Every step only reads the
state, which the explicit state-passing makes visible in the type. -/
def orchestrate (st : AppState) : Option (List OutRow) × AppState :=
  (match merged_inventory st.base st.prices st.incoming st.today with
   | none => none
   | some rows =>
     some (rows.map (fun r =>
       { row := r, status := classifyRow r st.overUnits, advies := recommendRow r })),
   st)

end Voorraad

namespace Voorraad

/-- C1: `classify` implements the specified decision order — with
`totalStock = freeStock + incomingQty`: OUT_OF_STOCK when
`totalStock ≤ 0`, else HEALTHY when `forecastMin4w ≤ 0`, else AT_RISK
when `totalStock < forecastMin4w`, else OVERSTOCK when
`totalStock ≥ forecastMin4w + overstockThreshold`, else HEALTHY — and a
row with `totalStock = forecastMin4w` is never classified AT_RISK. -/
theorem classify_decision_order (f vrij incoming : ℚ) (over : ℤ) :
    classify f vrij incoming over = classifySpec f vrij incoming over ∧
      (vrij + incoming = f → classify f vrij incoming over ≠ Status.atRisk) := by
  constructor
  · rfl
  · intro hEq
    unfold classify
    by_cases h1 : vrij + incoming ≤ 0
    · simp [h1]
    · by_cases h2 : f ≤ 0
      · simp [h1, h2]
      · have h3 : ¬ vrij + incoming < f := by rw [hEq]; exact lt_irrefl f
        by_cases h4 : vrij + incoming ≥ f + (over : ℚ)
        · simp [h1, h2, h3, h4]
        · simp [h1, h2, h3, h4]

/-- Witness for C1 at the boundary `totalStock = forecastMin4w`
(`f = 5`, `vrij = 5`, `incoming = 0`, threshold `30`). -/
theorem classify_decision_order_witness :
    classify 5 5 0 30 ≠ Status.atRisk :=
  (classify_decision_order 5 5 0 30).2 (by norm_num)

/-- C2: `recommend` returns `0` when `forecastMin4w ≤ 0`; otherwise with
`target = 1.1 * forecastMin4w` and
`need = max 0 (target - (freeStock + incomingQty))` it returns the least
multiple of `max 1 moq` that is at least `need`; the result is always a
non-negative multiple of `max 1 moq`. -/
theorem recommend_spec (f vrij incoming : ℚ) (moq : ℤ) :
    0 ≤ recommend f vrij incoming moq ∧
      max 1 moq ∣ recommend f vrij incoming moq ∧
      (f ≤ 0 → recommend f vrij incoming moq = 0) ∧
      (0 < f →
        max 0 (11 / 10 * f - (vrij + incoming)) ≤ (recommend f vrij incoming moq : ℚ) ∧
        (recommend f vrij incoming moq : ℚ) <
          max 0 (11 / 10 * f - (vrij + incoming)) + (max 1 moq : ℤ)) := by
  have hm : (0 : ℤ) < max 1 moq := lt_of_lt_of_le one_pos (le_max_left 1 moq)
  have hmQ : (0 : ℚ) < ((max 1 moq : ℤ) : ℚ) := by exact_mod_cast hm
  by_cases hf : f ≤ 0
  · have h0 : recommend f vrij incoming moq = 0 := by simp [recommend, hf]
    exact ⟨by rw [h0], by rw [h0]; exact dvd_zero _, fun _ => h0,
      fun hpos => absurd hf (not_le.mpr hpos)⟩
  · have hneed0 : (0 : ℚ) ≤ max 0 (11 / 10 * f - (vrij + incoming)) := le_max_left 0 _
    have hrec : recommend f vrij incoming moq =
        ⌈max 0 (11 / 10 * f - (vrij + incoming)) / ((max 1 moq : ℤ) : ℚ)⌉ * max 1 moq := by
      simp only [recommend, if_neg hf]
    set m : ℤ := max 1 moq with hmdef
    set need : ℚ := max 0 (11 / 10 * f - (vrij + incoming)) with hneeddef
    refine ⟨?_, ?_, fun h => absurd h hf, fun _ => ⟨?_, ?_⟩⟩
    · rw [hrec]
      exact mul_nonneg (Int.ceil_nonneg (div_nonneg hneed0 hmQ.le)) hm.le
    · rw [hrec]
      exact dvd_mul_left m _
    · rw [hrec]
      push_cast
      have h1 : need / (m : ℚ) ≤ (⌈need / (m : ℚ)⌉ : ℚ) := Int.le_ceil _
      calc need = need / (m : ℚ) * (m : ℚ) := by field_simp
        _ ≤ (⌈need / (m : ℚ)⌉ : ℚ) * (m : ℚ) := by
            exact mul_le_mul_of_nonneg_right h1 hmQ.le
    · rw [hrec]
      push_cast
      have h2 : (⌈need / (m : ℚ)⌉ : ℚ) < need / (m : ℚ) + 1 := Int.ceil_lt_add_one _
      calc (⌈need / (m : ℚ)⌉ : ℚ) * (m : ℚ)
          < (need / (m : ℚ) + 1) * (m : ℚ) := by
            exact mul_lt_mul_of_pos_right h2 hmQ
        _ = need + (m : ℚ) := by field_simp

/-- Witness for C2 at the specification's worked example
(`f = 10`, `vrij = 2`, `incoming = 0`, `moq = 5`): the recommendation is
a non-negative multiple of `5` that covers the need `9`. -/
theorem recommend_spec_witness :
    0 ≤ recommend 10 2 0 5 ∧ max 1 5 ∣ recommend 10 2 0 5 ∧
      max 0 (11 / 10 * 10 - (2 + 0)) ≤ (recommend 10 2 0 5 : ℚ) :=
  ⟨(recommend_spec 10 2 0 5).1, (recommend_spec 10 2 0 5).2.1,
    ((recommend_spec 10 2 0 5).2.2.2 (by norm_num)).1⟩


/-! ### Row normalization (`build_base`, app.py lines 108–121) -/

/-- One raw upload row, restricted to the six columns selected by the
mapping `sel` (all spreadsheet cells are read as strings,
`dtype=str`). -/
structure RawRow where
  eanCell : String
  refCell : String
  titleCell : String
  stockCell : String
  salesCell : String
  forecastCell : String
deriving DecidableEq, Repr

/-- Embedding of `build_base` (app.py lines 108–121): trim the `EAN`
cell, keep the reference cell only when a reference column was mapped
(otherwise the scalar `""` is broadcast), coerce the numeric cells with
`to_num`, and round the forecast up to an integer (`np.ceil` followed by
`astype(int)`). -/
def build_base (raw : List RawRow) (hasRef : Bool) : List StockRec :=
  raw.map (fun r =>
    { ean := pyStrip r.eanCell
      ref := if hasRef then r.refCell else ""
      titel := r.titleCell
      vrij := to_num r.stockCell
      verkopen := to_num r.salesCell
      prognose := ⌈to_num r.forecastCell⌉ })

/-- One `INSERT OR REPLACE` into a table whose primary key is `EAN`. -/
def upsert (tbl : List StockRec) (r : StockRec) : List StockRec :=
  if tbl.any (fun x => x.ean == r.ean) then
    tbl.map (fun x => if x.ean == r.ean then r else x)
  else tbl ++ [r]

/-- Embedding of `save_base_df` (app.py lines 309–325): clear the
`base_data` table, then insert every row of the dataframe (the `EAN`
primary key makes later duplicates replace earlier ones; no row is
filtered out). -/
def save_base_df (rows : List StockRec) : List StockRec :=
  rows.foldl upsert []

/-! ### Column auto-mapping (`PATTERNS` and `auto_map`, app.py lines
79–98)

The regular expressions of `PATTERNS` use only literal characters,
`\s*`, `.*`, `\b`, `^` and `$`, so they are embedded as token lists
(`RTok`) with an anchoring flag, matched by a fuelled backtracking
matcher (the fuel `tokens + characters + 1` strictly exceeds every chain
of recursive calls, each of which shrinks `tokens + characters`). -/

/-- Tokens of the embedded regular expressions: a literal character,
`\s*`, `.*`, a word boundary `\b`, and the end anchor `$`. -/
inductive RTok where
  | lit : Char → RTok
  | ws : RTok
  | dotstar : RTok
  | wb : RTok
  | eos : RTok
deriving DecidableEq, Repr

/-- An embedded regular expression: `anchored` is a leading `^`. -/
structure Pat where
  anchored : Bool
  toks : List RTok
deriving DecidableEq, Repr

/-- Word characters of the regex class `\w` (the headers are ASCII). -/
def isWordChar (c : Char) : Bool :=
  ('a' ≤ c && c ≤ 'z') || ('A' ≤ c && c ≤ 'Z') || ('0' ≤ c && c ≤ '9') || c == '_'

/-- Word boundary between the previous character and the next one (an
absent character counts as a non-word character). -/
def wordB (prev next : Option Char) : Bool :=
  (prev.elim false isWordChar) != (next.elim false isWordChar)

/-- Fuelled matcher: does the token list match a prefix of `cs`, with
`prev` the character just before `cs`? -/
def matchToksF : ℕ → List RTok → Option Char → List Char → Bool
  | 0, _, _, _ => false
  | _ + 1, [], _, _ => true
  | n + 1, .eos :: ts, prev, cs => cs.isEmpty && matchToksF n ts prev cs
  | n + 1, .wb :: ts, prev, cs => wordB prev cs.head? && matchToksF n ts prev cs
  | n + 1, .ws :: ts, prev, cs =>
    matchToksF n ts prev cs ||
      (match cs with
       | c :: cs2 => isSpaceChar c && matchToksF n (.ws :: ts) (some c) cs2
       | [] => false)
  | n + 1, .dotstar :: ts, prev, cs =>
    matchToksF n ts prev cs ||
      (match cs with
       | c :: cs2 => matchToksF n (.dotstar :: ts) (some c) cs2
       | [] => false)
  | n + 1, .lit a :: ts, _, cs =>
    match cs with
    | c :: cs2 => c == a && matchToksF n ts (some c) cs2
    | [] => false

/-- Match at the current position, with enough fuel for the whole
search. -/
def matchToksAt (ts : List RTok) (prev : Option Char) (cs : List Char) : Bool :=
  matchToksF (ts.length + cs.length + 1) ts prev cs

/-- Try to match at every start position (Python `re.search`). -/
def searchAux (ts : List RTok) : Option Char → List Char → Bool
  | prev, [] => matchToksAt ts prev []
  | prev, c :: cs => matchToksAt ts prev (c :: cs) || searchAux ts (some c) cs

/-- Embedding of `re.search(p, cn, re.I)` (the header is already
lower-cased and every pattern is lower-case, so the `re.I` flag is
inert). -/
def psearch (p : Pat) (s : String) : Bool :=
  if p.anchored then matchToksAt p.toks none s.data
  else searchAux p.toks none s.data

/-- Literal-token run for a literal fragment of a pattern. -/
def lits (s : String) : List RTok := s.data.map .lit

/-- The `"ean"` patterns of `PATTERNS` (app.py line 80). -/
def eanPats : List Pat :=
  [⟨true, [.ws] ++ lits "ean" ++ [.ws, .eos]⟩,
   ⟨false, [.wb] ++ lits "gtin" ++ [.wb]⟩,
   ⟨true, [.ws] ++ lits "barcode" ++ [.ws, .eos]⟩,
   ⟨true, [.ws] ++ lits "upc" ++ [.ws, .eos]⟩]

/-- The `"ref"` patterns of `PATTERNS` (app.py lines 81–82). -/
def refPats : List Pat :=
  [⟨true, [.ws] ++ lits "referentie" ++ [.ws, .eos]⟩,
   ⟨true, lits "ref" ++ [.eos]⟩,
   ⟨false, [.wb] ++ lits "reference" ++ [.wb]⟩,
   ⟨true, [.ws] ++ lits "sku" ++ [.ws, .eos]⟩,
   ⟨false, lits "artikel" ++ [.ws] ++ lits "code"⟩,
   ⟨false, lits "artikel" ++ [.ws] ++ lits "nr"⟩,
   ⟨false, lits "artikelnummer"⟩,
   ⟨false, lits "product" ++ [.ws] ++ lits "ref"⟩,
   ⟨false, lits "vendor" ++ [.ws] ++ lits "code"⟩]

/-- The `"title"` patterns of `PATTERNS` (app.py line 83). -/
def titlePats : List Pat :=
  [⟨true, [.ws] ++ lits "titel" ++ [.ws, .eos]⟩,
   ⟨true, [.ws] ++ lits "naam" ++ [.ws, .eos]⟩,
   ⟨false, lits "product" ++ [.ws] ++ lits "naam"⟩,
   ⟨false, lits "title"⟩]

/-- The `"stock"` patterns of `PATTERNS` (app.py line 84). -/
def stockPats : List Pat :=
  [⟨false, lits "vrije" ++ [.ws] ++ lits "voorraad"⟩,
   ⟨false, [.wb] ++ lits "voorraad" ++ [.wb]⟩,
   ⟨false, lits "available"⟩,
   ⟨false, lits "stock"⟩]

/-- The `"sales_total"` patterns of `PATTERNS` (app.py line 85). -/
def salesPats : List Pat :=
  [⟨false, lits "verkopen" ++ [.ws, .lit '(', .ws] ++ lits "totaal" ++ [.ws, .lit ')']⟩,
   ⟨false, lits "verkopen" ++ [.dotstar] ++ lits "totaal"⟩,
   ⟨false, lits "totaal" ++ [.dotstar] ++ lits "verkopen"⟩,
   ⟨false, lits "sales" ++ [.ws] ++ lits "total"⟩]

/-- The `"forecast_min_4w"` patterns of `PATTERNS` (app.py lines
86–87). -/
def forecastPats : List Pat :=
  [⟨false, lits "verkoopprognose" ++ [.dotstar, .lit '4', .ws, .lit 'w']⟩,
   ⟨false, lits "forecast" ++ [.dotstar, .lit '4']⟩,
   ⟨false, lits "prognose" ++ [.dotstar, .lit '4', .ws, .lit 'w']⟩,
   ⟨false, lits "verkoopprognose" ++ [.ws] ++ lits "min" ++ [.ws, .lit '(', .ws] ++
     lits "totaal" ++ [.ws, .lit '4', .ws, .lit 'w', .ws, .lit ')']⟩]

/-- The pattern table `PATTERNS` in its insertion order (app.py lines
79–88). -/
def PATTERNS : List (String × List Pat) :=
  [("ean", eanPats), ("ref", refPats), ("title", titlePats),
   ("stock", stockPats), ("sales_total", salesPats),
   ("forecast_min_4w", forecastPats)]

/-- Header normalization `str(c).strip().lower()` (app.py line 95). -/
def normHeader (c : String) : String := pyLower (pyStrip c)

/-- Does any of the field's patterns match the normalized header
(`any(re.search(p, cn, re.I) for p in pats)`, app.py line 96)? -/
def headerMatches (pats : List Pat) (c : String) : Bool :=
  pats.any (fun p => psearch p (normHeader c))

/-- Embedding of the inner loop of `auto_map` (app.py lines 93–97): walk
the headers in column order and select the first one some pattern of the
field matches. -/
def auto_map_field (pats : List Pat) : List String → Option String
  | [] => none
  | c :: cs => if headerMatches pats c then some c else auto_map_field pats cs

/-- Embedding of `auto_map` (app.py lines 91–98): one entry per field of
`PATTERNS`, in table order, skipping unmapped fields. -/
def auto_map (headers : List String) : List (String × String) :=
  PATTERNS.foldl (fun m kp =>
    match auto_map_field kp.2 headers with
    | some c => m ++ [(kp.1, c)]
    | none => m) []

/-- Field mapping exactly as the claim words it: patterns are tested in
pattern-list order, and the first pattern that has a matching header
contributes that pattern's first matching header. -/
def auto_map_field_spec (pats : List Pat) (headers : List String) : Option String :=
  pats.findSome? (fun p => headers.find? (fun c => psearch p (normHeader c)))

end Voorraad

namespace Voorraad

/-! ### Helper lemmas about the key-based join -/

/-- Unfolding `enrichOne` when the stock record matches no terms row. -/
theorem enrichOne_of_no_match {prices : List PriceRec}
    {incoming : List IncomingRec} {today : ℤ} {s : StockRec}
    (hfil : prices.filter (fun p => p.ean == pyStrip s.ean) = []) :
    enrichOne prices incoming today s =
      [enrich { s with ean := pyStrip s.ean }
        (incomingFor incoming today (pyStrip s.ean)) none] := by
  simp only [enrichOne, hfil]

/-- Unfolding `enrichOne` when the stock record matches the terms rows
`p :: ps`. -/
theorem enrichOne_of_match {prices : List PriceRec}
    {incoming : List IncomingRec} {today : ℤ} {s : StockRec}
    {p : PriceRec} {ps : List PriceRec}
    (hfil : prices.filter (fun q => q.ean == pyStrip s.ean) = p :: ps) :
    enrichOne prices incoming today s =
      (p :: ps).map (fun q => enrich { s with ean := pyStrip s.ean }
        (incomingFor incoming today (pyStrip s.ean)) (some q)) := by
  simp only [enrichOne, hfil]

/-- A key absent from the terms table matches no terms row. -/
theorem filter_key_eq_nil {prices : List PriceRec} {e : String}
    (h : e ∉ prices.map (·.ean)) :
    prices.filter (fun p => p.ean == e) = [] := by
  induction prices with
  | nil => rfl
  | cons p ps ih =>
    simp only [List.map_cons, List.mem_cons, not_or] at h
    rw [List.filter_cons]
    have hne : (p.ean == e) = false := by
      simp only [beq_eq_false_iff_ne, ne_eq]
      exact fun hh => h.1 hh.symm
    rw [hne]
    exact ih h.2

/-- Under the terms store's primary-key invariant (no duplicate `EAN`),
any key matches at most one terms row. -/
theorem length_filter_key_le_one {prices : List PriceRec}
    (h : (prices.map (·.ean)).Nodup) (e : String) :
    (prices.filter (fun p => p.ean == e)).length ≤ 1 := by
  induction prices with
  | nil => simp
  | cons p ps ih =>
    simp only [List.map_cons, List.nodup_cons] at h
    rw [List.filter_cons]
    by_cases hpe : (p.ean == e) = true
    · have he : p.ean = e := by simpa using hpe
      have hnil : ps.filter (fun q => q.ean == e) = [] :=
        filter_key_eq_nil (he ▸ h.1)
      simp [hpe, hnil]
    · simp only [Bool.not_eq_true] at hpe
      rw [hpe]
      exact ih h.2

/-- Under the primary-key invariant each stock record yields exactly one
enriched row. -/
theorem enrichOne_length_one {prices : List PriceRec}
    (h : (prices.map (·.ean)).Nodup) (incoming : List IncomingRec)
    (today : ℤ) (s : StockRec) :
    (enrichOne prices incoming today s).length = 1 := by
  cases hfil : prices.filter (fun p => p.ean == pyStrip s.ean) with
  | nil => rw [enrichOne_of_no_match hfil, List.length_singleton]
  | cons p ps =>
    have hle := length_filter_key_le_one h (pyStrip s.ean)
    rw [hfil] at hle
    simp only [List.length_cons, Nat.succ_le_succ_iff, Nat.le_zero,
      List.length_eq_zero] at hle
    subst hle
    rw [enrichOne_of_match hfil]
    rfl

/-- A terms row whose key matches no stock record does not change the
per-record join. -/
theorem enrichOne_append_orphan {t : PriceRec} {s : StockRec}
    (prices : List PriceRec) (incoming : List IncomingRec) (today : ℤ)
    (h : t.ean ≠ pyStrip s.ean) :
    enrichOne (prices ++ [t]) incoming today s = enrichOne prices incoming today s := by
  have hfil : (prices ++ [t]).filter (fun p => p.ean == pyStrip s.ean)
      = prices.filter (fun p => p.ean == pyStrip s.ean) := by
    rw [List.filter_append]
    have ht : [t].filter (fun p => p.ean == pyStrip s.ean) = [] := by
      simp [List.filter_cons, h]
    rw [ht, List.append_nil]
  simp only [enrichOne, hfil]

/-- C3: the merge is left-outer from the stock perspective.  Given the
terms store's primary-key invariant, the enriched view has exactly one
row per stock record; every stock record survives with its base fields
intact; a stock record matching no terms row survives with zero-valued
numeric defaults and empty text defaults; and appending (equivalently,
removing) a commercial-terms row whose `productId` matches no stock
record leaves the enriched view unchanged, row for row and field for
field. -/
theorem merged_inventory_left_outer (rows : List StockRec)
    (prices : List PriceRec) (incoming : List IncomingRec) (today : ℤ)
    (t : PriceRec) (hpk : (prices.map (·.ean)).Nodup)
    (horphan : ∀ s ∈ rows, t.ean ≠ pyStrip s.ean) :
    ((merged_inventory (some rows) prices incoming today).getD []).length = rows.length ∧
      (∀ s ∈ rows, ∃ er ∈ (merged_inventory (some rows) prices incoming today).getD [],
        er.ean = pyStrip s.ean ∧ er.titel = s.titel ∧ er.vrij = s.vrij ∧
          er.verkopen = s.verkopen ∧ er.prognose = s.prognose) ∧
      (∀ s ∈ rows, (∀ p ∈ prices, p.ean ≠ pyStrip s.ean) →
        ∃ er ∈ (merged_inventory (some rows) prices incoming today).getD [],
          er.ean = pyStrip s.ean ∧ er.verkoopprijs = 0 ∧ er.inkoopprijs = 0 ∧
            er.verzendkosten = 0 ∧ er.overige = 0 ∧ er.leverancier = "" ∧
            er.moq = 0 ∧ er.levertijd = 0) ∧
      merged_inventory (some rows) (prices ++ [t]) incoming today =
        merged_inventory (some rows) prices incoming today := by
  refine ⟨?_, ?_, ?_, ?_⟩
  · simp only [merged_inventory, Option.getD_some]
    clear horphan
    induction rows with
    | nil => rfl
    | cons s rs ih =>
      rw [List.flatMap_cons, List.length_append, ih,
        enrichOne_length_one hpk incoming today s, List.length_cons]
      omega
  · intro s hs
    simp only [merged_inventory, Option.getD_some]
    have hone : ∃ er ∈ enrichOne prices incoming today s,
        er.ean = pyStrip s.ean ∧ er.titel = s.titel ∧ er.vrij = s.vrij ∧
          er.verkopen = s.verkopen ∧ er.prognose = s.prognose := by
      cases hfil : prices.filter (fun p => p.ean == pyStrip s.ean) with
      | nil =>
        rw [enrichOne_of_no_match hfil]
        exact ⟨_, List.mem_singleton_self _, rfl, rfl, rfl, rfl, rfl⟩
      | cons p ps =>
        rw [enrichOne_of_match hfil]
        exact ⟨enrich { s with ean := pyStrip s.ean }
            (incomingFor incoming today (pyStrip s.ean)) (some p),
          List.mem_map_of_mem _ (List.mem_cons_self p ps), rfl, rfl, rfl, rfl, rfl⟩
    obtain ⟨er, hmem, hprops⟩ := hone
    exact ⟨er, List.mem_flatMap.mpr ⟨s, hs, hmem⟩, hprops⟩
  · intro s hs hnomatch
    simp only [merged_inventory, Option.getD_some]
    have hfil : prices.filter (fun p => p.ean == pyStrip s.ean) = [] := by
      apply filter_key_eq_nil
      intro hmem
      obtain ⟨p, hp, hpe⟩ := List.mem_map.mp hmem
      exact hnomatch p hp hpe
    refine ⟨enrich { s with ean := pyStrip s.ean }
        (incomingFor incoming today (pyStrip s.ean)) none,
      List.mem_flatMap.mpr ⟨s, hs, ?_⟩, rfl, rfl, rfl, rfl, rfl, rfl, rfl, rfl⟩
    rw [enrichOne_of_no_match hfil]
    exact List.mem_singleton_self _
  · simp only [merged_inventory, Option.some_inj]
    induction rows with
    | nil => rfl
    | cons s rs ih =>
      rw [List.flatMap_cons, List.flatMap_cons,
        enrichOne_append_orphan prices incoming today (horphan s (List.mem_cons_self s rs)),
        ih (fun x hx => horphan x (List.mem_cons_of_mem s hx))]

end Voorraad

namespace Voorraad

/-- Witness for C3 on a one-product stock snapshot, a matching terms
table satisfying the primary-key invariant, and an orphan terms row with
key `"z"`. -/
theorem merged_inventory_left_outer_witness :
    ((merged_inventory (some [⟨"a", "", "t", 1, 2, 3⟩])
        [⟨"a", "r", 4, 5, 6, 7, "sup", 5, 8⟩] [] 0).getD []).length = 1 ∧
      merged_inventory (some [⟨"a", "", "t", 1, 2, 3⟩])
          ([⟨"a", "r", 4, 5, 6, 7, "sup", 5, 8⟩] ++ [⟨"z", "", 0, 0, 0, 0, "", 1, 0⟩]) [] 0 =
        merged_inventory (some [⟨"a", "", "t", 1, 2, 3⟩])
          [⟨"a", "r", 4, 5, 6, 7, "sup", 5, 8⟩] [] 0 :=
  ⟨(merged_inventory_left_outer [⟨"a", "", "t", 1, 2, 3⟩]
      [⟨"a", "r", 4, 5, 6, 7, "sup", 5, 8⟩] [] 0 ⟨"z", "", 0, 0, 0, 0, "", 1, 0⟩
      (by decide) (by decide)).1,
    (merged_inventory_left_outer [⟨"a", "", "t", 1, 2, 3⟩]
      [⟨"a", "r", 4, 5, 6, 7, "sup", 5, 8⟩] [] 0 ⟨"z", "", 0, 0, 0, 0, "", 1, 0⟩
      (by decide) (by decide)).2.2.2⟩

/-- The two shipment filters (by pending `ETA`, by product key) commute,
so the code's order (filter by `ETA`, then group by key) computes the
specification's sum (records of this key whose `ETA` qualifies). -/
theorem incomingFor_eq_spec (incoming : List IncomingRec) (today : ℤ)
    (e : String) :
    incomingFor incoming today e = incomingSpec incoming today e := by
  unfold incomingFor incomingSpec
  congr 1
  congr 1
  rw [List.filter_filter, List.filter_filter]
  congr 1
  funext r
  exact Bool.and_comm _ _

/-- C7: every row of the enriched view carries as `incomingQty` the sum
of `quantity` over the shipment records sharing its (trimmed) product id
whose `eta` is absent or today-or-later; with no qualifying shipment
records the row gets `incomingQty = 0`. -/
theorem merged_incoming_eq (rows : List StockRec) (prices : List PriceRec)
    (incoming : List IncomingRec) (today : ℤ) (er : EnrichedRow)
    (h : er ∈ (merged_inventory (some rows) prices incoming today).getD []) :
    er.incoming = incomingSpec incoming today er.ean ∧
      ((incoming.filter (fun r => r.ean == er.ean)).filter (etaPending today) = [] →
        er.incoming = 0) := by
  simp only [merged_inventory, Option.getD_some] at h
  obtain ⟨s, hs, hmem⟩ := List.mem_flatMap.mp h
  have key : er.ean = pyStrip s.ean ∧
      er.incoming = incomingFor incoming today (pyStrip s.ean) := by
    cases hfil : prices.filter (fun p => p.ean == pyStrip s.ean) with
    | nil =>
      rw [enrichOne_of_no_match hfil, List.mem_singleton] at hmem
      subst hmem
      exact ⟨rfl, rfl⟩
    | cons p ps =>
      rw [enrichOne_of_match hfil] at hmem
      obtain ⟨q, hq, hEq⟩ := List.mem_map.mp hmem
      subst hEq
      exact ⟨rfl, rfl⟩
  have h1 : er.incoming = incomingSpec incoming today er.ean := by
    rw [key.2, key.1, incomingFor_eq_spec]
  refine ⟨h1, fun hnil => ?_⟩
  rw [h1]
  unfold incomingSpec
  rw [hnil]
  rfl

/-- Witness for C7: one stock record `"a"`, an empty terms table, one
pending shipment of 5 without `ETA` and one expired shipment of 7 with
`ETA` day 3 against today = day 10. -/
theorem merged_incoming_eq_witness :
    (enrich ⟨pyStrip "a", "", "t", 1, 2, 3⟩
        (incomingFor [⟨"a", 5, none⟩, ⟨"a", 7, some 3⟩] 10 (pyStrip "a")) none).incoming =
      incomingSpec [⟨"a", 5, none⟩, ⟨"a", 7, some 3⟩] 10
        (enrich ⟨pyStrip "a", "", "t", 1, 2, 3⟩
          (incomingFor [⟨"a", 5, none⟩, ⟨"a", 7, some 3⟩] 10 (pyStrip "a")) none).ean :=
  (merged_incoming_eq [⟨"a", "", "t", 1, 2, 3⟩] []
    [⟨"a", 5, none⟩, ⟨"a", 7, some 3⟩] 10
    (enrich ⟨pyStrip "a", "", "t", 1, 2, 3⟩
      (incomingFor [⟨"a", 5, none⟩, ⟨"a", 7, some 3⟩] 10 (pyStrip "a")) none)
    (List.mem_append_left _ (List.mem_singleton_self _))).1

/-- C8: one recomputation pass (merge, classification, recommendation)
only reads the state, and running it again on the state it leaves behind
returns exactly the same output: the pass is idempotent and
deterministic in its inputs. -/
theorem orchestrate_idempotent (st : AppState) :
    (orchestrate st).2 = st ∧ orchestrate ((orchestrate st).2) = orchestrate st :=
  ⟨rfl, rfl⟩

/-- C10: an empty persisted stock store loads as `none` (not as an empty
table), and the merge — hence the whole recomputation pass — signals
absence by returning `none` instead of producing rows to classify. -/
theorem empty_base_signals_absence (prices : List PriceRec)
    (incoming : List IncomingRec) (today : ℤ) (st : AppState) :
    load_base_df [] = none ∧
      merged_inventory none prices incoming today = none ∧
      (st.base = none → (orchestrate st).1 = none) := by
  refine ⟨rfl, rfl, fun h => ?_⟩
  simp only [orchestrate, merged_inventory, h]

/-- Witness for C10 on the initial state (no snapshot, empty side
tables, default threshold 30). -/
theorem empty_base_signals_absence_witness :
    (orchestrate ⟨none, [], [], 30, 0⟩).1 = none :=
  (empty_base_signals_absence [] [] 0 ⟨none, [], [], 30, 0⟩).2.2 rfl

end Voorraad

namespace Voorraad

/-! ### Claims about the column mapper -/

/-- C4 counterexample: for the `"ref"` field and the header list
`["sku", "referentie"]`, the code selects `"sku"` (the first header
matching any pattern), while tie-breaking by pattern-list order — as the
claim states — would select `"referentie"` (the header matching the
field's first pattern).  The claim's tie-break rule is therefore false
of the code. -/
theorem auto_map_header_position_counterexample :
    auto_map_field refPats ["sku", "referentie"] = some "sku" ∧
      auto_map_field_spec refPats ["sku", "referentie"] = some "referentie" ∧
      auto_map_field refPats ["sku", "referentie"] ≠
        auto_map_field_spec refPats ["sku", "referentie"] :=
  ⟨by decide, by decide, by decide⟩

/-- C4 (amended): for every header list the mapper selects, per field,
the first header in header-list order whose normalized text matches any
of the field's patterns (so ties between headers are broken by header
position); a field with no matching header is absent from the mapping;
and the whole table is mapped field by field, independently and
deterministically. -/
theorem auto_map_first_header_wins (pats : List Pat) (headers : List String) :
    auto_map_field pats headers = headers.find? (headerMatches pats) ∧
      auto_map headers = PATTERNS.filterMap (fun kp =>
        (auto_map_field kp.2 headers).map (fun c => (kp.1, c))) := by
  constructor
  · induction headers with
    | nil => rfl
    | cons c cs ih =>
      by_cases h : headerMatches pats c
      · simp [auto_map_field, h, List.find?_cons_of_pos]
      · have hf : headerMatches pats c = false := by simpa using h
        simp [auto_map_field, hf, List.find?_cons_of_neg, ih]
  · have gen : ∀ (tbl : List (String × List Pat)) (acc : List (String × String)),
        tbl.foldl (fun m kp =>
          match auto_map_field kp.2 headers with
          | some c => m ++ [(kp.1, c)]
          | none => m) acc
          = acc ++ tbl.filterMap (fun kp =>
              (auto_map_field kp.2 headers).map (fun c => (kp.1, c))) := by
      intro tbl
      induction tbl with
      | nil => intro acc; simp
      | cons kp tl ih =>
        intro acc
        rw [List.foldl_cons, List.filterMap_cons]
        cases hc : auto_map_field kp.2 headers with
        | none => simp only [hc, Option.map_none', ih]
        | some c =>
          simp only [hc, Option.map_some', ih]
          rw [List.append_assoc, List.singleton_append]
    have h0 : auto_map headers = PATTERNS.foldl (fun m kp =>
        match auto_map_field kp.2 headers with
        | some c => m ++ [(kp.1, c)]
        | none => m) [] := rfl
    rw [h0, gen PATTERNS [], List.nil_append]

/-! ### Claims about row normalization and numeric coercion -/

/-- C5 counterexample: a raw row whose `EAN` cell is blank (`" "`)
survives `build_base` with an empty trimmed product id, and is also
inserted by `save_base_df`: rows with an empty identifier are not
dropped. -/
theorem build_base_keeps_empty_id :
    (¬ ∀ r ∈ build_base [⟨" ", "", "t", "1", "2", "3"⟩] true, r.ean ≠ "") ∧
      ∃ r ∈ save_base_df (build_base [⟨" ", "", "t", "1", "2", "3"⟩] true), r.ean = "" := by
  constructor
  · intro h
    exact h ⟨pyStrip " ", "", "t", to_num "1", to_num "2", ⌈to_num "3"⌉⟩
      (List.mem_singleton_self _) (by decide)
  · exact ⟨⟨pyStrip " ", "", "t", to_num "1", to_num "2", ⌈to_num "3"⌉⟩,
      List.mem_singleton_self _, by decide⟩

/-- C5 (amended): row normalization trims the product id of every row
and keeps every row — in particular a row whose product id is empty
after trimming is retained, so the canonical dataset can contain an
empty product id. -/
theorem build_base_trims_keeps_all (raw : List RawRow) (hasRef : Bool) :
    (build_base raw hasRef).map (·.ean) = raw.map (fun r => pyStrip r.eanCell) ∧
      (build_base raw hasRef).length = raw.length := by
  constructor
  · simp only [build_base, List.map_map]
    rfl
  · simp only [build_base, List.length_map]

/-- C6 (amended): numeric coercion is total and absorbing — it never
raises (it is a total function into `ℚ`), yields `0` for anything
unparseable, and a blank cell parses to `0`; hence a blank
`forecastMin4w` normalizes (after the ceiling) to `0`.  Negative inputs
are not clamped: see the counterexample. -/
theorem to_num_total_absorbing (s : String) :
    (parseSci (commaToDot s) = none → to_num s = 0) ∧
      to_num "" = 0 ∧ ⌈to_num ""⌉ = (0 : ℤ) := by
  refine ⟨fun h => ?_, rfl, ?_⟩
  · simp [to_num, h]
  · rw [show to_num "" = 0 from rfl]
    exact Int.ceil_zero

/-- Witness for C6 on the unparseable cell `"abc"`. -/
theorem to_num_total_absorbing_witness :
    parseSci (commaToDot "abc") = none ∧ to_num "abc" = 0 :=
  ⟨by decide, (to_num_total_absorbing "abc").1 (by decide)⟩

/-- C6 counterexample: the negative forecast cell `"-3"` is parsed,
ceiled and stored as `-3`, not normalized to `0`. -/
theorem forecast_negative_preserved :
    (build_base [⟨"x", "", "t", "0", "0", "-3"⟩] true).map (·.prognose) = [-3] ∧
      (-3 : ℤ) ≠ 0 := by
  constructor
  · have h : to_num "-3" = ((-3 : ℤ) : ℚ) * (10 : ℚ) ^ (0 : ℤ) := rfl
    have h2 : ((-3 : ℤ) : ℚ) * (10 : ℚ) ^ (0 : ℤ) = ((-3 : ℤ) : ℚ) := by norm_num
    simp only [build_base, List.map_map, List.map_cons, List.map_nil, Function.comp]
    rw [h, h2, Int.ceil_intCast]
  · decide

/-- C9: parsing is invariant under the choice of decimal separator — for
a numeric text with no comma (the decimal-point form), replacing the
point by a comma yields the same `to_num` value. -/
theorem to_num_separator_invariant (s : String) (h : ',' ∉ s.data) :
    to_num (dotToComma s) = to_num s := by
  have hcd : commaToDot (dotToComma s) = commaToDot s := by
    simp only [commaToDot, dotToComma]
    congr 1
    rw [List.map_map]
    refine List.map_congr_left (fun c hc => ?_)
    have hne : (c == ',') = false := by
      simp only [beq_eq_false_iff_ne, ne_eq]
      exact fun he => h (he ▸ hc)
    by_cases hdot : c = '.'
    · subst hdot; rfl
    · have hd : (c == '.') = false := by simpa using hdot
      simp [Function.comp, hd, hne]
  simp only [to_num, parseSci]
  rw [hcd]

/-- Witness for C9 on `"12,5"` versus `"12.5"`. -/
theorem to_num_separator_invariant_witness : to_num "12,5" = to_num "12.5" :=
  to_num_separator_invariant "12.5" (by decide)

end Voorraad
